import Mathlib

/-!
Verification of the pairing and connectivity orchestrator of the MiniK
appliance: the known-device registry (`utils/device_manager.py`), the
heartbeat monitor (`network/heartbeat_manager.py`), the BLE provisioning
server (`network/ble_manager.py`), the WiFi manager
(`network/wifi_manager.py`) and the controller retry logic
(`controller/app_controller.py`), shallowly embedded in Lean.
-/

/-- A Python value as it appears in the credential dictionaries of the app:
either `None` or a string.  Truthiness follows Python: `None` and the empty
string are falsy, every other string is truthy. -/
inductive PVal where
  | none
  | str (s : String)
  deriving DecidableEq, Repr

/-- Python truthiness of a `PVal`. -/
def PVal.truthy : PVal → Bool
  | PVal.none => false
  | PVal.str s => s != ""

/-- `d.get(k, dflt)` on a Python dictionary modelled as an association list. -/
def dictGet (d : List (String × PVal)) (k : String) (dflt : PVal) : PVal :=
  match d.lookup k with
  | some v => v
  | Option.none => dflt

/-- `d[k] = v` on a Python dictionary modelled as an association list:
overwrite the first binding of `k`, or append one. -/
def dictSet (d : List (String × PVal)) (k : String) (v : PVal) :
    List (String × PVal) :=
  match d with
  | [] => [(k, v)]
  | (k', v') :: rest =>
      if k' = k then (k, v) :: rest else (k', v') :: dictSet rest k v

/-- One entry of the known-device registry, exactly the dictionary built by
`DeviceManager.save_pairing` (device_manager.py lines 79-85): the fields
`ble_name`, `ble_mac`, `ssid`, `phone_address`, `last_connected` and nothing
else — in particular no password field exists. -/
structure KnownDevice where
  ble_name : PVal
  ble_mac : PVal
  ssid : PVal
  phone_address : PVal
  last_connected : PVal
  deriving DecidableEq, Repr

/-- The `entry` dictionary built inside `DeviceManager.save_pairing` from the
credentials dictionary; `now` is `datetime.now().isoformat()`. -/
def pairingEntry (credentials : List (String × PVal)) (now : String) :
    KnownDevice :=
  { ble_name := dictGet credentials "ble_name" (PVal.str "")
    ble_mac := dictGet credentials "ble_mac" (PVal.str "")
    ssid := dictGet credentials "ssid" (PVal.str "")
    phone_address := dictGet credentials "phone_address" (PVal.str "")
    last_connected := PVal.str now }

/-- `known[known.index(existing)] = entry` where `existing` is the first
element whose `ble_mac` equals `mac` (device_manager.py lines 87-92):
replace the first entry whose MAC matches, leave everything else alone. -/
def replaceFirstMac (known : List KnownDevice) (mac : PVal)
    (entry : KnownDevice) : List KnownDevice :=
  match known with
  | [] => []
  | d :: rest =>
      if d.ble_mac = mac then entry :: rest
      else d :: replaceFirstMac rest mac entry

/-- `DeviceManager.save_pairing` (device_manager.py lines 72-99), restricted
to its effect on the `known_devices` list: build the entry from the
credentials, then update in place if an entry with the same `ble_mac`
exists, otherwise append. -/
def save_pairing (known : List KnownDevice)
    (credentials : List (String × PVal)) (now : String) : List KnownDevice :=
  let mac := dictGet credentials "ble_mac" (PVal.str "")
  let entry := pairingEntry credentials now
  if known.any (fun d => d.ble_mac == mac) then replaceFirstMac known mac entry
  else known ++ [entry]

/-- The guard at device_manager.py lines 101-102: a heartbeat is started from
`save_pairing` exactly when `config.USE_REAL_NETWORK` holds and
`credentials.get('phone_address')` is truthy. -/
def save_pairing_starts_heartbeat (useRealNetwork : Bool)
    (credentials : List (String × PVal)) : Bool :=
  useRealNetwork && (dictGet credentials "phone_address" PVal.none).truthy

/-- A sequence of `save_pairing` calls, applied in order. -/
def runSaves (init : List KnownDevice)
    (saves : List (List (String × PVal) × String)) : List KnownDevice :=
  saves.foldl (fun st cs => save_pairing st cs.1 cs.2) init

/-! ### Lemmas about the registry upsert -/

theorem pairingEntry_ble_mac (c : List (String × PVal)) (now : String) :
    (pairingEntry c now).ble_mac = dictGet c "ble_mac" (PVal.str "") := rfl

theorem any_mac_iff (known : List KnownDevice) (mac : PVal) :
    known.any (fun d => d.ble_mac == mac) = true ↔
      ∃ d ∈ known, d.ble_mac = mac := by
  simp [List.any_eq_true]

theorem replaceFirstMac_length (known : List KnownDevice) (mac : PVal)
    (entry : KnownDevice) :
    (replaceFirstMac known mac entry).length = known.length := by
  induction known with
  | nil => rfl
  | cons d rest ih =>
      by_cases h : d.ble_mac = mac <;> simp [replaceFirstMac, h, ih]

theorem replaceFirstMac_map_ble_mac (known : List KnownDevice) (mac : PVal)
    (entry : KnownDevice) (h : entry.ble_mac = mac) :
    (replaceFirstMac known mac entry).map KnownDevice.ble_mac =
      known.map KnownDevice.ble_mac := by
  induction known with
  | nil => rfl
  | cons d rest ih =>
      by_cases hd : d.ble_mac = mac
      · simp [replaceFirstMac, hd, h]
      · simp [replaceFirstMac, hd, ih]

theorem mem_of_mem_replaceFirstMac {known : List KnownDevice} {mac : PVal}
    {entry e : KnownDevice} (h : e ∈ replaceFirstMac known mac entry) :
    e ∈ known ∨ e = entry := by
  induction known with
  | nil => simp [replaceFirstMac] at h
  | cons d rest ih =>
      by_cases hd : d.ble_mac = mac
      · simp [replaceFirstMac, hd] at h
        rcases h with h | h
        · exact Or.inr h
        · exact Or.inl (List.mem_cons_of_mem _ h)
      · simp [replaceFirstMac, hd] at h
        rcases h with h | h
        · exact Or.inl (h ▸ List.mem_cons_self _ _)
        · rcases ih h with h' | h'
          · exact Or.inl (List.mem_cons_of_mem _ h')
          · exact Or.inr h'

theorem self_mem_replaceFirstMac {known : List KnownDevice} {mac : PVal}
    (entry : KnownDevice) (h : ∃ d ∈ known, d.ble_mac = mac) :
    entry ∈ replaceFirstMac known mac entry := by
  induction known with
  | nil => simp at h
  | cons d rest ih =>
      by_cases hd : d.ble_mac = mac
      · simp [replaceFirstMac, hd]
      · rcases h with ⟨d', hd', hmac⟩
        rcases List.mem_cons.mp hd' with h' | h'
        · exact absurd (h' ▸ hmac) hd
        · simp only [replaceFirstMac, if_neg hd]
          exact List.mem_cons_of_mem _ (ih ⟨d', h', hmac⟩)

theorem replaceFirstMac_unique {known : List KnownDevice} {mac : PVal}
    {entry : KnownDevice}
    (hnd : (known.map KnownDevice.ble_mac).Nodup) :
    ∀ e ∈ replaceFirstMac known mac entry, e.ble_mac = mac → e = entry := by
  induction known with
  | nil => simp [replaceFirstMac]
  | cons d rest ih =>
      simp only [List.map_cons, List.nodup_cons] at hnd
      by_cases hd : d.ble_mac = mac
      · intro e he hemac
        simp only [replaceFirstMac, if_pos hd] at he
        rcases List.mem_cons.mp he with h | h
        · exact h
        · exfalso
          exact hnd.1 (hd ▸ hemac ▸ List.mem_map_of_mem KnownDevice.ble_mac h)
      · intro e he hemac
        simp only [replaceFirstMac, if_neg hd] at he
        rcases List.mem_cons.mp he with h | h
        · exact absurd (h ▸ hemac) hd
        · exact ih hnd.2 e h hemac

theorem replaceFirstMac_eq_set {known : List KnownDevice} {mac : PVal}
    (entry : KnownDevice)
    (hnd : (known.map KnownDevice.ble_mac).Nodup)
    (i : Nat) (hi : i < known.length)
    (hmac : (known.get ⟨i, hi⟩).ble_mac = mac) :
    replaceFirstMac known mac entry = known.set i entry := by
  induction known generalizing i with
  | nil => exact absurd hi (by simp)
  | cons d rest ih =>
      simp only [List.map_cons, List.nodup_cons] at hnd
      cases i with
      | zero =>
          simp only [List.get] at hmac
          simp [replaceFirstMac, hmac]
      | succ j =>
          simp only [List.get] at hmac
          have hj : j < rest.length := by
            simpa using Nat.lt_of_succ_lt_succ hi
          have hdm : d.ble_mac ≠ mac := by
            intro hEq
            exact hnd.1 (hEq ▸ hmac ▸
              List.mem_map_of_mem KnownDevice.ble_mac (rest.get_mem j hj))
          simp only [replaceFirstMac, if_neg hdm, List.set]
          exact congrArg _ (ih hnd.2 j hj hmac)

theorem save_pairing_nodup {known : List KnownDevice}
    {c : List (String × PVal)} {now : String}
    (h : (known.map KnownDevice.ble_mac).Nodup) :
    ((save_pairing known c now).map KnownDevice.ble_mac).Nodup := by
  unfold save_pairing
  by_cases hany : known.any
      (fun d => d.ble_mac == dictGet c "ble_mac" (PVal.str "")) = true
  · rw [if_pos hany,
      replaceFirstMac_map_ble_mac _ _ _ (pairingEntry_ble_mac c now)]
    exact h
  · rw [if_neg hany]
    have hnotin : dictGet c "ble_mac" (PVal.str "") ∉
        known.map KnownDevice.ble_mac := by
      intro hmem
      rcases List.mem_map.mp hmem with ⟨d, hd, hdm⟩
      exact hany ((any_mac_iff known _).mpr ⟨d, hd, hdm⟩)
    simp [List.nodup_append, h, pairingEntry_ble_mac]
    intro d hd hdm
    exact hnotin (hdm ▸ List.mem_map_of_mem KnownDevice.ble_mac hd)

theorem runSaves_nodup {init : List KnownDevice}
    (h : (init.map KnownDevice.ble_mac).Nodup)
    (saves : List (List (String × PVal) × String)) :
    ((runSaves init saves).map KnownDevice.ble_mac).Nodup := by
  induction saves generalizing init with
  | nil => exact h
  | cons cs rest ih =>
      exact ih (save_pairing_nodup h)

theorem pairingEntry_mem_save_pairing (known : List KnownDevice)
    (c : List (String × PVal)) (now : String) :
    pairingEntry c now ∈ save_pairing known c now := by
  unfold save_pairing
  by_cases hany : known.any
      (fun d => d.ble_mac == dictGet c "ble_mac" (PVal.str "")) = true
  · rw [if_pos hany]
    exact self_mem_replaceFirstMac _ ((any_mac_iff known _).mp hany)
  · rw [if_neg hany]
    simp

theorem save_pairing_unique {known : List KnownDevice}
    {c : List (String × PVal)} {now : String}
    (hnd : (known.map KnownDevice.ble_mac).Nodup) :
    ∀ e ∈ save_pairing known c now,
      e.ble_mac = dictGet c "ble_mac" (PVal.str "") → e = pairingEntry c now := by
  unfold save_pairing
  by_cases hany : known.any
      (fun d => d.ble_mac == dictGet c "ble_mac" (PVal.str "")) = true
  · rw [if_pos hany]
    exact replaceFirstMac_unique hnd
  · rw [if_neg hany]
    intro e he hemac
    rcases List.mem_append.mp he with h | h
    · exact absurd ((any_mac_iff known _).mpr ⟨e, h, hemac⟩) hany
    · simpa using h

theorem save_pairing_eq_set {known : List KnownDevice}
    {c : List (String × PVal)} {now : String}
    (hnd : (known.map KnownDevice.ble_mac).Nodup)
    (i : Nat) (hi : i < known.length)
    (hmac : (known.get ⟨i, hi⟩).ble_mac = dictGet c "ble_mac" (PVal.str "")) :
    save_pairing known c now = known.set i (pairingEntry c now) := by
  unfold save_pairing
  have hany : known.any
      (fun d => d.ble_mac == dictGet c "ble_mac" (PVal.str "")) = true :=
    (any_mac_iff known _).mpr ⟨known.get ⟨i, hi⟩, known.get_mem i hi, hmac⟩
  rw [if_pos hany]
  exact replaceFirstMac_eq_set _ hnd i hi hmac

theorem save_pairing_eq_append {known : List KnownDevice}
    {c : List (String × PVal)} {now : String}
    (h : ∀ e ∈ known, e.ble_mac ≠ dictGet c "ble_mac" (PVal.str "")) :
    save_pairing known c now = known ++ [pairingEntry c now] := by
  unfold save_pairing
  have hany : ¬ known.any
      (fun d => d.ble_mac == dictGet c "ble_mac" (PVal.str "")) = true := by
    intro hc
    rcases (any_mac_iff known _).mp hc with ⟨d, hd, hdm⟩
    exact h d hd hdm
  rw [if_neg hany]

theorem save_pairing_length_of_mem {known : List KnownDevice}
    {c : List (String × PVal)} {now : String}
    (h : ∃ d ∈ known, d.ble_mac = dictGet c "ble_mac" (PVal.str "")) :
    (save_pairing known c now).length = known.length := by
  unfold save_pairing
  rw [if_pos ((any_mac_iff known _).mpr h)]
  exact replaceFirstMac_length _ _ _

/-- Claim C1: starting from any registry state satisfying the documented
invariant (at most one entry per `ble_mac`), every sequence of
`save_pairing(credentials)` calls preserves the invariant, and after each
call the entry for the saved MAC holds exactly the values of the most recent
save: if an entry with that MAC exists it is replaced in place at its
position, otherwise the new entry is appended. -/
theorem save_pairing_registry_invariant
    (init : List KnownDevice)
    (h : (init.map KnownDevice.ble_mac).Nodup)
    (saves : List (List (String × PVal) × String))
    (c : List (String × PVal)) (now : String) :
    (((save_pairing (runSaves init saves) c now).map KnownDevice.ble_mac).Nodup) ∧
    (∀ e ∈ save_pairing (runSaves init saves) c now,
        e.ble_mac = dictGet c "ble_mac" (PVal.str "") →
        e = pairingEntry c now) ∧
    pairingEntry c now ∈ save_pairing (runSaves init saves) c now ∧
    (∀ i : Nat, ∀ hi : i < (runSaves init saves).length,
        ((runSaves init saves).get ⟨i, hi⟩).ble_mac =
            dictGet c "ble_mac" (PVal.str "") →
        save_pairing (runSaves init saves) c now =
          (runSaves init saves).set i (pairingEntry c now)) ∧
    ((∀ e ∈ runSaves init saves,
        e.ble_mac ≠ dictGet c "ble_mac" (PVal.str "")) →
        save_pairing (runSaves init saves) c now =
          runSaves init saves ++ [pairingEntry c now]) := by
  have hnd := runSaves_nodup h saves
  exact ⟨save_pairing_nodup hnd, save_pairing_unique hnd,
    pairingEntry_mem_save_pairing _ c now,
    fun i hi hmac => save_pairing_eq_set hnd i hi hmac,
    fun hall => save_pairing_eq_append hall⟩

/-- Concrete instantiation of `save_pairing_registry_invariant`: one save of
a device with MAC AA into the empty registry keeps the MAC list duplicate
free. -/
theorem save_pairing_registry_invariant_witness :
    ((save_pairing (runSaves [] []) [("ble_mac", PVal.str "AA")] "t1").map
        KnownDevice.ble_mac).Nodup :=
  (save_pairing_registry_invariant [] (by simp) []
    [("ble_mac", PVal.str "AA")] "t1").1

/-! ### Claim C6: the password is never persisted -/

theorem lookup_dictSet_ne (d : List (String × PVal)) (k k' : String)
    (v : PVal) (h : k' ≠ k) :
    (dictSet d k v).lookup k' = d.lookup k' := by
  have hb : (k' == k) = false := beq_eq_false_iff_ne.mpr h
  induction d with
  | nil => simp [dictSet, List.lookup, hb]
  | cons p rest ih =>
      obtain ⟨k0, v0⟩ := p
      by_cases hk : k0 = k
      · subst hk
        simp [dictSet, List.lookup, hb]
      · simp only [dictSet, if_neg hk, List.lookup]
        cases hbe : k' == k0 with
        | true => rfl
        | false => exact ih

theorem dictGet_dictSet_ne (d : List (String × PVal)) (k k' : String)
    (v dflt : PVal) (h : k' ≠ k) :
    dictGet (dictSet d k v) k' dflt = dictGet d k' dflt := by
  unfold dictGet
  rw [lookup_dictSet_ne d k k' v h]

theorem pairingEntry_dictSet_password (c : List (String × PVal))
    (now : String) (v : PVal) :
    pairingEntry (dictSet c "password" v) now = pairingEntry c now := by
  unfold pairingEntry
  rw [dictGet_dictSet_ne c "password" "ble_name" v _ (by decide),
    dictGet_dictSet_ne c "password" "ble_mac" v _ (by decide),
    dictGet_dictSet_ne c "password" "ssid" v _ (by decide),
    dictGet_dictSet_ne c "password" "phone_address" v _ (by decide)]

/-- Claim C6: the record written to the registry by `save_pairing` holds only
the five `KnownDevice` fields and never the password: overwriting the
password field of the credentials changes neither the persisted registry
contents nor the heartbeat decision, and the only record a call can add to
the registry is `pairingEntry`, which is built without reading the password
key. -/
theorem password_never_persisted (known : List KnownDevice)
    (c : List (String × PVal)) (now : String) (v : PVal)
    (useRealNetwork : Bool) :
    save_pairing known (dictSet c "password" v) now =
      save_pairing known c now ∧
    save_pairing_starts_heartbeat useRealNetwork (dictSet c "password" v) =
      save_pairing_starts_heartbeat useRealNetwork c ∧
    (∀ e ∈ save_pairing known c now, e ∈ known ∨ e = pairingEntry c now) := by
  refine ⟨?_, ?_, ?_⟩
  · unfold save_pairing
    rw [pairingEntry_dictSet_password,
      dictGet_dictSet_ne c "password" "ble_mac" v _ (by decide)]
  · unfold save_pairing_starts_heartbeat
    rw [dictGet_dictSet_ne c "password" "phone_address" v _ (by decide)]
  · intro e he
    unfold save_pairing at he
    by_cases hany : known.any
        (fun d => d.ble_mac == dictGet c "ble_mac" (PVal.str "")) = true
    · rw [if_pos hany] at he
      exact mem_of_mem_replaceFirstMac he
    · rw [if_neg hany] at he
      rcases List.mem_append.mp he with h | h
      · exact Or.inl h
      · exact Or.inr (by simpa using h)

/-- Concrete instantiation of `password_never_persisted`: changing the
password of a credentials dictionary leaves the saved registry unchanged. -/
theorem password_never_persisted_witness :
    save_pairing []
        (dictSet [("ssid", PVal.str "Net"), ("password", PVal.str "a")]
          "password" (PVal.str "b")) "t" =
      save_pairing [] [("ssid", PVal.str "Net"), ("password", PVal.str "a")]
        "t" :=
  (password_never_persisted [] [("ssid", PVal.str "Net"),
    ("password", PVal.str "a")] "t" (PVal.str "b") false).1

/-! ### Claim C10: the fresh-pairing path stores an empty MAC -/

/-- The credentials dictionary returned by a successful
`BLEManager.wait_for_pairing` (ble_manager.py lines 246-251): only the keys
`ssid`, `password` and `phone_address`, the last one bound to `None`. -/
def wait_for_pairing_result (ssid password : String) :
    List (String × PVal) :=
  [("ssid", PVal.str ssid), ("password", PVal.str password),
   ("phone_address", PVal.none)]

/-- Claim C10 (implicit): the credentials produced by a successful BLE
`wait_for_pairing` carry no `ble_mac` or `ble_name` key and a `None`
`phone_address`, so every fresh pairing is stored with empty `ble_mac` and
`ble_name`; consequently a second fresh pairing upserts the same single
registry entry (the registry does not grow), and `save_pairing` never starts
a heartbeat from such credentials. -/
theorem fresh_pairing_empty_mac (ssid pw ssid2 pw2 : String)
    (known : List KnownDevice) (t t2 : String) (useRealNetwork : Bool) :
    (wait_for_pairing_result ssid pw).lookup "ble_mac" = Option.none ∧
    (wait_for_pairing_result ssid pw).lookup "ble_name" = Option.none ∧
    (wait_for_pairing_result ssid pw).lookup "phone_address" =
      some PVal.none ∧
    (pairingEntry (wait_for_pairing_result ssid pw) t).ble_mac =
      PVal.str "" ∧
    (pairingEntry (wait_for_pairing_result ssid pw) t).ble_name =
      PVal.str "" ∧
    (save_pairing (save_pairing known (wait_for_pairing_result ssid pw) t)
        (wait_for_pairing_result ssid2 pw2) t2).length =
      (save_pairing known (wait_for_pairing_result ssid pw) t).length ∧
    save_pairing_starts_heartbeat useRealNetwork
      (wait_for_pairing_result ssid pw) = false := by
  refine ⟨rfl, rfl, rfl, rfl, rfl, ?_, ?_⟩
  · exact save_pairing_length_of_mem
      ⟨pairingEntry (wait_for_pairing_result ssid pw) t,
        pairingEntry_mem_save_pairing known _ t, rfl⟩
  · simp [save_pairing_starts_heartbeat, dictGet, wait_for_pairing_result,
      List.lookup, PVal.truthy]

/-! ### Claim C2: heartbeat hysteresis (`network/heartbeat_manager.py`) -/

/-- `HeartbeatManager.MAX_FAILURES` (heartbeat_manager.py line 16). -/
def MAX_FAILURES : Nat := 3

/-- The mutable state of `HeartbeatManager`: `_failure_count` and
`_is_connected` (`None` = unknown, `some true` = online, `some false` =
offline). -/
structure HBState where
  failureCount : Nat
  isConnected : Option Bool
  deriving DecidableEq, Repr

/-- The callbacks `HeartbeatManager` can fire from one `_check`. -/
inductive HBEvent where
  | onConnected
  | onDisconnected
  deriving DecidableEq, Repr

/-- `HeartbeatManager._check` (heartbeat_manager.py lines 45-65) given the
result of `_tcp_ping`: on success reset the counter to zero and, if not
already online, go online and fire `on_connected`; on failure increment the
counter and, once it reaches `MAX_FAILURES` and the state is not already
offline, go offline and fire `on_disconnected`. -/
def hb_check (s : HBState) (reachable : Bool) : HBState × List HBEvent :=
  match reachable with
  | true =>
      if s.isConnected = some true then
        ({ failureCount := 0, isConnected := some true }, [])
      else
        ({ failureCount := 0, isConnected := some true },
          [HBEvent.onConnected])
  | false =>
      if MAX_FAILURES ≤ s.failureCount + 1 then
        if s.isConnected = some false then
          ({ failureCount := s.failureCount + 1, isConnected := some false },
            [])
        else
          ({ failureCount := s.failureCount + 1, isConnected := some false },
            [HBEvent.onDisconnected])
      else
        ({ failureCount := s.failureCount + 1,
           isConnected := s.isConnected }, [])

/-- The state after a sequence of probe results, starting from the initial
state (`_failure_count = 0`, `_is_connected = None`). -/
def hb_run (probes : List Bool) : HBState :=
  probes.foldl (fun s b => (hb_check s b).1)
    { failureCount := 0, isConnected := Option.none }

/-- Length of the trailing run of failed probes. -/
def consecutiveFailures (probes : List Bool) : Nat :=
  probes.foldl (fun n b => if b then 0 else n + 1) 0

theorem hb_check_failureCount (s : HBState) (b : Bool) :
    (hb_check s b).1.failureCount = if b then 0 else s.failureCount + 1 := by
  cases b
  · show (hb_check s false).1.failureCount = s.failureCount + 1
    simp only [hb_check]
    split
    · split <;> rfl
    · rfl
  · show (hb_check s true).1.failureCount = 0
    simp only [hb_check]
    split <;> rfl

theorem hb_check_true_isConnected (s : HBState) :
    (hb_check s true).1.isConnected = some true := by
  simp only [hb_check]
  split <;> rfl

theorem hb_run_append (ps : List Bool) (b : Bool) :
    hb_run (ps ++ [b]) = (hb_check (hb_run ps) b).1 := by
  simp [hb_run, List.foldl_append]

theorem consecutiveFailures_append (ps : List Bool) (b : Bool) :
    consecutiveFailures (ps ++ [b]) =
      if b then 0 else consecutiveFailures ps + 1 := by
  simp [consecutiveFailures, List.foldl_append]

theorem hb_invariant (ps : List Bool) :
    (hb_run ps).failureCount = consecutiveFailures ps ∧
    ((hb_run ps).isConnected = some false ↔
      MAX_FAILURES ≤ consecutiveFailures ps) ∧
    ((hb_run ps).isConnected = some true ↔
      (true ∈ ps ∧ consecutiveFailures ps < MAX_FAILURES)) := by
  induction ps using List.reverseRecOn with
  | nil =>
      refine ⟨rfl, ?_, ?_⟩
      · simp [hb_run, consecutiveFailures, MAX_FAILURES]
      · simp [hb_run, consecutiveFailures]
  | append_singleton l b ih =>
      obtain ⟨ihc, ihf, iht⟩ := ih
      rw [hb_run_append, consecutiveFailures_append]
      cases b
      · rw [if_neg Bool.false_ne_true]
        have hcnt : (hb_check (hb_run l) false).1.failureCount =
            consecutiveFailures l + 1 := by
          rw [hb_check_failureCount, if_neg Bool.false_ne_true, ihc]
        have hmem : (true ∈ l ++ [false]) ↔ true ∈ l := by simp
        by_cases hge : MAX_FAILURES ≤ consecutiveFailures l + 1
        · have hnew : (hb_check (hb_run l) false).1.isConnected =
              some false := by
            simp only [hb_check]
            rw [if_pos (by rw [ihc]; exact hge)]
            by_cases hoff : (hb_run l).isConnected = some false
            · rw [if_pos hoff]
            · rw [if_neg hoff]
          refine ⟨hcnt, ?_, ?_⟩
          · rw [hnew]
            simp [hge]
          · rw [hnew, hmem]
            constructor
            · intro h
              exact absurd h (by simp)
            · rintro ⟨-, hlt⟩
              simp only [MAX_FAILURES] at hge hlt
              omega
        · have hnew : (hb_check (hb_run l) false).1.isConnected =
              (hb_run l).isConnected := by
            simp only [hb_check]
            rw [if_neg (by rw [ihc]; exact hge)]
          refine ⟨hcnt, ?_, ?_⟩
          · rw [hnew, ihf]
            simp only [MAX_FAILURES] at hge ⊢
            omega
          · rw [hnew, iht, hmem]
            simp only [MAX_FAILURES] at hge ⊢
            constructor
            · rintro ⟨hm, -⟩
              exact ⟨hm, by omega⟩
            · rintro ⟨hm, -⟩
              exact ⟨hm, by omega⟩
      · rw [if_pos rfl]
        have hnew := hb_check_true_isConnected (hb_run l)
        refine ⟨?_, ?_, ?_⟩
        · rw [hb_check_failureCount, if_pos rfl]
        · rw [hnew]
          simp [MAX_FAILURES]
        · rw [hnew]
          simp [MAX_FAILURES]

theorem hb_check_events (s : HBState) (b : Bool) :
    ((hb_check s b).2 ≠ [] ↔ (hb_check s b).1.isConnected ≠ s.isConnected) ∧
    (HBEvent.onConnected ∈ (hb_check s b).2 ↔
      (b = true ∧ s.isConnected ≠ some true)) ∧
    (HBEvent.onDisconnected ∈ (hb_check s b).2 ↔
      (b = false ∧ MAX_FAILURES ≤ s.failureCount + 1 ∧
        s.isConnected ≠ some false)) := by
  cases b
  · simp only [hb_check]
    by_cases hge : MAX_FAILURES ≤ s.failureCount + 1
    · rw [if_pos hge]
      by_cases hoff : s.isConnected = some false
      · rw [if_pos hoff]
        simp [hoff, hge]
      · rw [if_neg hoff]
        simp [hoff, hge, eq_comm]
    · rw [if_neg hge]
      simp [hge]
  · simp only [hb_check]
    by_cases hon : s.isConnected = some true
    · rw [if_pos hon]
      simp [hon]
    · rw [if_neg hon]
      simp [hon, eq_comm]

/-- Claim C2: starting from the initial Unknown state with failure counter
zero, after any probe history `ps`: a successful probe always resets the
counter to zero and declares Online; the monitor transitions to Offline on a
failed probe exactly when that probe is the `MAX_FAILURES`-th consecutive
failure (the trailing failure run of the history is `MAX_FAILURES - 1`); and
a callback fires exactly when the Online/Offline state actually changes —
`on_connected` exactly on a success while not Online, `on_disconnected`
exactly on the failure completing the run — never on a probe that repeats
the current state. -/
theorem heartbeat_hysteresis (ps : List Bool) (b : Bool) :
    ((hb_check (hb_run ps) true).1.failureCount = 0 ∧
      (hb_check (hb_run ps) true).1.isConnected = some true) ∧
    (((hb_check (hb_run ps) b).1.isConnected = some false ∧
        (hb_run ps).isConnected ≠ some false) ↔
      (b = false ∧ consecutiveFailures ps = MAX_FAILURES - 1)) ∧
    ((hb_check (hb_run ps) b).2 ≠ [] ↔
      (hb_check (hb_run ps) b).1.isConnected ≠ (hb_run ps).isConnected) ∧
    (HBEvent.onConnected ∈ (hb_check (hb_run ps) b).2 ↔
      (b = true ∧ (hb_run ps).isConnected ≠ some true)) ∧
    (HBEvent.onDisconnected ∈ (hb_check (hb_run ps) b).2 ↔
      (b = false ∧ consecutiveFailures ps = MAX_FAILURES - 1)) := by
  obtain ⟨ihc, ihf, iht⟩ := hb_invariant ps
  obtain ⟨hev, hon, hoff⟩ := hb_check_events (hb_run ps) b
  simp only [ne_eq, ihc, ihf] at hoff
  have hsucc1 : (hb_check (hb_run ps) true).1.failureCount = 0 := by
    rw [hb_check_failureCount, if_pos rfl]
  refine ⟨⟨hsucc1, hb_check_true_isConnected (hb_run ps)⟩, ?_, hev, hon, ?_⟩
  · cases b
    · by_cases hge : MAX_FAILURES ≤ consecutiveFailures ps + 1
      · have hnew : (hb_check (hb_run ps) false).1.isConnected =
            some false := by
          simp only [hb_check]
          rw [if_pos (by rw [ihc]; exact hge)]
          by_cases hoff2 : (hb_run ps).isConnected = some false
          · rw [if_pos hoff2]
          · rw [if_neg hoff2]
        rw [hnew]
        constructor
        · rintro ⟨-, hold⟩
          simp only [ne_eq, ihf] at hold
          refine ⟨rfl, ?_⟩
          simp only [MAX_FAILURES] at hge hold ⊢
          omega
        · rintro ⟨-, hcf⟩
          refine ⟨rfl, ?_⟩
          simp only [ne_eq, ihf]
          simp only [MAX_FAILURES] at hcf ⊢
          omega
      · have hnew : (hb_check (hb_run ps) false).1.isConnected =
            (hb_run ps).isConnected := by
          simp only [hb_check]
          rw [if_neg (by rw [ihc]; exact hge)]
        rw [hnew]
        constructor
        · rintro ⟨h1, h2⟩
          exact absurd h1 h2
        · rintro ⟨-, hcf⟩
          exfalso
          simp only [MAX_FAILURES] at hge hcf
          omega
    · rw [hb_check_true_isConnected (hb_run ps)]
      constructor
      · rintro ⟨h1, -⟩
        exact absurd h1 (by simp)
      · rintro ⟨h, -⟩
        exact absurd h (by simp)
  · rw [hoff]
    constructor
    · rintro ⟨hb', h2, h3⟩
      refine ⟨hb', ?_⟩
      simp only [MAX_FAILURES] at h2 h3 ⊢
      omega
    · rintro ⟨hb', hcf⟩
      refine ⟨hb', ?_, ?_⟩
      · simp only [MAX_FAILURES] at hcf ⊢
        omega
      · simp only [MAX_FAILURES] at hcf ⊢
        omega

/-! ### Claim C3: the credentials-ready event (`network/ble_manager.py`) -/

/-- Python truthiness of the `_credentials` slots of `BLEManager`: `None`
before the first write, afterwards the decoded string of the last write. -/
def optTruthy : Option String → Bool
  | Option.none => false
  | some s => s != ""

/-- The provisioning state of `BLEManager`: the two `_credentials` slots and
whether `_cred_event` has been set. -/
structure BLECreds where
  ssid : Option String
  password : Option String
  credEventSet : Bool
  deriving DecidableEq, Repr

/-- A write to one of the two writable GATT characteristics, carrying the
decoded (UTF-8, stripped) string value. -/
inductive CredWrite where
  | ssidWrite (v : String)
  | passWrite (v : String)
  deriving DecidableEq, Repr

/-- `BLEManager._check_credentials` (ble_manager.py lines 305-308): set the
event when both stored values are truthy — this is Python truthiness, so
`None` and the empty string both fail the test. -/
def check_credentials (s : BLECreds) : BLECreds :=
  if optTruthy s.ssid && optTruthy s.password then
    { s with credEventSet := true }
  else s

/-- `BLEManager._on_ssid_write` / `_on_pass_write` (ble_manager.py lines
295-303): store the written value, then run `_check_credentials`. -/
def credWriteStep (s : BLECreds) (w : CredWrite) : BLECreds :=
  match w with
  | CredWrite.ssidWrite v => check_credentials { s with ssid := some v }
  | CredWrite.passWrite v => check_credentials { s with password := some v }

/-- The `BLEManager` credential state after a sequence of characteristic
writes, starting from the reset state (both slots `None`, event clear). -/
def credRun (ws : List CredWrite) : BLECreds :=
  ws.foldl credWriteStep
    { ssid := Option.none, password := Option.none, credEventSet := false }

def isSsidWrite : CredWrite → Bool
  | CredWrite.ssidWrite _ => true
  | CredWrite.passWrite _ => false

def isPassWrite : CredWrite → Bool
  | CredWrite.ssidWrite _ => false
  | CredWrite.passWrite _ => true

/-- Claim C3 fails on the code: after writing the SSID characteristic once
and the PASSWORD characteristic once, both with the empty string, both
characteristics have been written at least once, yet the credentials-ready
event is not set, because `_check_credentials` tests Python truthiness of
the stored values, not whether a write happened. -/
theorem credentials_ready_counterexample :
    ([CredWrite.ssidWrite "", CredWrite.passWrite ""].any isSsidWrite)
        = true ∧
    ([CredWrite.ssidWrite "", CredWrite.passWrite ""].any isPassWrite)
        = true ∧
    (credRun [CredWrite.ssidWrite "", CredWrite.passWrite ""]).credEventSet
        = false := by
  decide

theorem credRun_append (ws : List CredWrite) (w : CredWrite) :
    credRun (ws ++ [w]) = credWriteStep (credRun ws) w := by
  simp [credRun, List.foldl_append]

theorem credWriteStep_event (s : BLECreds) (w : CredWrite) :
    (credWriteStep s w).credEventSet =
      (s.credEventSet ||
        (optTruthy (credWriteStep s w).ssid &&
          optTruthy (credWriteStep s w).password)) := by
  cases w with
  | ssidWrite v =>
      simp only [credWriteStep, check_credentials]
      by_cases h : (optTruthy (some v) && optTruthy s.password) = true
      · rw [if_pos h]
        simp_all
      · rw [if_neg h]
        simp_all
  | passWrite v =>
      simp only [credWriteStep, check_credentials]
      by_cases h : (optTruthy s.ssid && optTruthy (some v)) = true
      · rw [if_pos h]
        simp_all
      · rw [if_neg h]
        simp_all

theorem take_of_le_length {α : Type} (l l' : List α) (n : Nat)
    (h : n ≤ l.length) : (l ++ l').take n = l.take n := by
  induction l generalizing n with
  | nil =>
      have : n = 0 := Nat.le_zero.mp h
      simp [this]
  | cons a rest ih =>
      cases n with
      | zero => rfl
      | succ m =>
          simp only [List.cons_append, List.take]
          exact congrArg _ (ih m (Nat.le_of_succ_le_succ h))

/-- Claim C3 amended: the credentials-ready event is set if and only if at
some point of the write sequence both stored values are simultaneously
truthy (non-`None` and non-empty) — order of writes is immaterial; and any
number of SSID writes with no PASSWORD write never sets it. -/
theorem credentials_ready_amended (ws : List CredWrite) :
    ((credRun ws).credEventSet = true ↔
      ∃ n, optTruthy (credRun (ws.take n)).ssid = true ∧
        optTruthy (credRun (ws.take n)).password = true) ∧
    ((∀ w ∈ ws, isSsidWrite w = true) → (credRun ws).credEventSet = false) := by
  constructor
  · induction ws using List.reverseRecOn with
    | nil =>
        constructor
        · intro h
          exact absurd h (by simp [credRun])
        · rintro ⟨n, h1, -⟩
          simp [credRun, optTruthy] at h1
    | append_singleton l w ih =>
        rw [credRun_append, credWriteStep_event]
        constructor
        · intro h
          rcases Bool.or_eq_true_iff.mp h with h' | h'
          · rcases ih.mp h' with ⟨n, hn1, hn2⟩
            refine ⟨min n l.length, ?_, ?_⟩
            · rw [take_of_le_length l [w] _ (Nat.min_le_right n l.length)]
              rcases Nat.le_total n l.length with hle | hle
              · rw [Nat.min_eq_left hle]
                exact hn1
              · rw [Nat.min_eq_right hle, List.take_length]
                rw [List.take_of_length_le hle] at hn1
                exact hn1
            · rw [take_of_le_length l [w] _ (Nat.min_le_right n l.length)]
              rcases Nat.le_total n l.length with hle | hle
              · rw [Nat.min_eq_left hle]
                exact hn2
              · rw [Nat.min_eq_right hle, List.take_length]
                rw [List.take_of_length_le hle] at hn2
                exact hn2
          · refine ⟨(l ++ [w]).length, ?_, ?_⟩
            · rw [List.take_length, credRun_append]
              exact (Bool.and_eq_true_iff.mp h').1
            · rw [List.take_length, credRun_append]
              exact (Bool.and_eq_true_iff.mp h').2
        · rintro ⟨n, hn1, hn2⟩
          rcases Nat.lt_or_ge n (l.length + 1) with hle | hle
          · rw [take_of_le_length l [w] _ (Nat.lt_succ_iff.mp hle)] at hn1 hn2
            exact Bool.or_eq_true_iff.mpr
              (Or.inl (ih.mpr ⟨n, hn1, hn2⟩))
          · have hlen : (l ++ [w]).length ≤ n := by
              simpa using hle
            rw [List.take_of_length_le hlen] at hn1 hn2
            rw [credRun_append] at hn1 hn2
            exact Bool.or_eq_true_iff.mpr
              (Or.inr (Bool.and_eq_true_iff.mpr ⟨hn1, hn2⟩))
  · intro hall
    suffices h : ∀ (ws2 : List CredWrite) (s : BLECreds),
        (∀ w ∈ ws2, isSsidWrite w = true) → s.password = Option.none →
        s.credEventSet = false →
        (ws2.foldl credWriteStep s).password = Option.none ∧
        (ws2.foldl credWriteStep s).credEventSet = false by
      exact (h ws _ hall rfl rfl).2
    intro ws2
    induction ws2 with
    | nil =>
        intro s _ hpw hev
        exact ⟨hpw, hev⟩
    | cons w rest ih =>
        intro s hall' hpw hev
        cases w with
        | ssidWrite v =>
            simp only [List.foldl_cons]
            exact ih _ (fun x hx => hall' x (List.mem_cons_of_mem _ hx))
              (by simp [credWriteStep, check_credentials, hpw, optTruthy])
              (by simp [credWriteStep, check_credentials, hpw, optTruthy, hev])
        | passWrite v =>
            exact absurd (hall' _ (List.mem_cons_self _ _))
              (by simp [isSsidWrite])

/-- Concrete instantiation of `credentials_ready_amended`: two SSID writes
with no PASSWORD write leave the credentials-ready event clear. -/
theorem credentials_ready_amended_witness :
    (credRun [CredWrite.ssidWrite "HomeNet",
      CredWrite.ssidWrite "HomeNet2"]).credEventSet = false :=
  (credentials_ready_amended [CredWrite.ssidWrite "HomeNet",
    CredWrite.ssidWrite "HomeNet2"]).2 (by decide)

/-! ### Claims C4, C7, C8: the controller (`controller/app_controller.py`) -/

/-- `WIFI_RETRY_LIMIT` (app_controller.py line 8). -/
def WIFI_RETRY_LIMIT : Nat := 3

/-- `WIFI_RETRY_INTERVAL` (app_controller.py line 9). -/
def WIFI_RETRY_INTERVAL : Nat := 10

/-- The externally visible actions the controller performs, in the order it
performs them. -/
inductive CtrlAction where
  | connectAttempt (attempt : Nat) (ok : Bool)
  | notifyHotspot
  | showHotspotPrompt (attempt retriesLeft retryIn : Nat)
  | sleepSecs (n : Nat)
  | updateLastConnected
  | startWifiServer
  | goHome
  | showQr
  | savePairing
  | getLocalIp
  | sendIpToPhone
  | stopBle
  | showScanning
  | startScanThread
  deriving DecidableEq, Repr

/-- The shared retry loop of `_auto_connect_retry_logic` (app_controller.py
lines 123-171) and `_new_pair_wifi_logic` (lines 246-299):
`for attempt in range(1, WIFI_RETRY_LIMIT + 1)`, one `connect_wifi` call per
iteration (its outcome is `outcomes attempt`); on success the branch-specific
success actions run and the loop returns; on failure `notify_enable_hotspot`
fires and, when `attempt < WIFI_RETRY_LIMIT`, the hotspot prompt is shown
and the worker sleeps `WIFI_RETRY_INTERVAL` seconds; after the loop the QR
screen is shown.  `fuel` counts the remaining iterations. -/
def retry_loop (outcomes : Nat → Bool) (successActions : List CtrlAction) :
    Nat → Nat → List CtrlAction
  | _, 0 => [CtrlAction.showQr]
  | attempt, fuel + 1 =>
      CtrlAction.connectAttempt attempt (outcomes attempt) ::
        (if outcomes attempt then successActions
         else CtrlAction.notifyHotspot ::
           (if attempt < WIFI_RETRY_LIMIT then
              CtrlAction.showHotspotPrompt attempt (WIFI_RETRY_LIMIT - attempt)
                  WIFI_RETRY_INTERVAL ::
                CtrlAction.sleepSecs WIFI_RETRY_INTERVAL ::
                  retry_loop outcomes successActions (attempt + 1) fuel
            else retry_loop outcomes successActions (attempt + 1) fuel))

/-- Success actions of `_auto_connect_retry_logic` (app_controller.py lines
141-147): `update_last_connected`, `start_wifi_server`, navigate home. -/
def autoSuccessActions : List CtrlAction :=
  [CtrlAction.updateLastConnected, CtrlAction.startWifiServer, CtrlAction.goHome]

/-- Success actions of `_new_pair_wifi_logic` (app_controller.py lines
262-277): read the local IP, send it over BLE when available, sleep one
second, stop BLE, start the data-exchange server, navigate home.  `ipAvail`
is whether `get_local_ip` returned a truthy address. -/
def newPairSuccessActions (ipAvail : Bool) : List CtrlAction :=
  CtrlAction.getLocalIp ::
    ((if ipAvail then [CtrlAction.sendIpToPhone] else []) ++
      [CtrlAction.sleepSecs 1, CtrlAction.stopBle, CtrlAction.startWifiServer,
        CtrlAction.goHome])

/-- `AppController._auto_connect_retry_logic` as its action trace. -/
def auto_connect_retry_logic (outcomes : Nat → Bool) : List CtrlAction :=
  retry_loop outcomes autoSuccessActions 1 WIFI_RETRY_LIMIT

/-- `AppController._new_pair_wifi_logic` as its action trace. -/
def new_pair_wifi_logic (outcomes : Nat → Bool) (ipAvail : Bool) :
    List CtrlAction :=
  retry_loop outcomes (newPairSuccessActions ipAvail) 1 WIFI_RETRY_LIMIT

/-- `AppController._on_paired` (app_controller.py lines 219-230): on receipt
of credentials it calls `save_pairing` first and only then starts the worker
running `_new_pair_wifi_logic`. -/
def on_paired (outcomes : Nat → Bool) (ipAvail : Bool) : List CtrlAction :=
  CtrlAction.savePairing :: new_pair_wifi_logic outcomes ipAvail

def isConnect : CtrlAction → Bool
  | CtrlAction.connectAttempt _ _ => true
  | _ => false

def isSuccConnect : CtrlAction → Bool
  | CtrlAction.connectAttempt _ ok => ok
  | _ => false

/-- At most `WIFI_RETRY_LIMIT` connect attempts appear in the trace. -/
abbrev atMostLimitConnects (l : List CtrlAction) : Prop :=
  l.countP isConnect ≤ WIFI_RETRY_LIMIT

/-- Between any two connect attempts a `WIFI_RETRY_INTERVAL`-second sleep
occurs. -/
abbrev spacedConnects (l : List CtrlAction) : Prop :=
  ∀ i j : Fin l.length, i < j → isConnect (l.get i) = true →
    isConnect (l.get j) = true →
    ∃ k : Fin l.length, i < k ∧ k < j ∧
      l.get k = CtrlAction.sleepSecs WIFI_RETRY_INTERVAL

/-- No connect attempt follows a successful one. -/
abbrev stopsAfterSuccess (l : List CtrlAction) : Prop :=
  ∀ i j : Fin l.length, i < j → isSuccConnect (l.get i) = true →
    isConnect (l.get j) = false

/-- After a successful connect the remainder of the trace is exactly the
success actions. -/
abbrev directSuccess (l success : List CtrlAction) : Prop :=
  ∀ i : Fin l.length, isSuccConnect (l.get i) = true →
    l.drop (i.1 + 1) = success

theorem retry_loop_eq (outcomes : Nat → Bool) (s : List CtrlAction) :
    retry_loop outcomes s 1 WIFI_RETRY_LIMIT =
      CtrlAction.connectAttempt 1 (outcomes 1) ::
        (if outcomes 1 then s
         else CtrlAction.notifyHotspot ::
           CtrlAction.showHotspotPrompt 1 2 WIFI_RETRY_INTERVAL ::
             CtrlAction.sleepSecs WIFI_RETRY_INTERVAL ::
               CtrlAction.connectAttempt 2 (outcomes 2) ::
                 (if outcomes 2 then s
                  else CtrlAction.notifyHotspot ::
                    CtrlAction.showHotspotPrompt 2 1 WIFI_RETRY_INTERVAL ::
                      CtrlAction.sleepSecs WIFI_RETRY_INTERVAL ::
                        CtrlAction.connectAttempt 3 (outcomes 3) ::
                          (if outcomes 3 then s
                           else [CtrlAction.notifyHotspot, CtrlAction.showQr]))) :=
  rfl

/-- Claim C4: in both the reconnect branch and the fresh-pairing branch, for
every sequence of connect-attempt outcomes, `connect` is invoked at most
`WIFI_RETRY_LIMIT` times, a `WIFI_RETRY_INTERVAL`-second sleep separates any
two attempts, no attempt follows a successful one, and a successful attempt
is followed directly by the branch's success actions. -/
theorem wifi_retry_policy (o : Nat → Bool) (ip : Bool) :
    (atMostLimitConnects (auto_connect_retry_logic o) ∧
     spacedConnects (auto_connect_retry_logic o) ∧
     stopsAfterSuccess (auto_connect_retry_logic o) ∧
     directSuccess (auto_connect_retry_logic o) autoSuccessActions) ∧
    (atMostLimitConnects (new_pair_wifi_logic o ip) ∧
     spacedConnects (new_pair_wifi_logic o ip) ∧
     stopsAfterSuccess (new_pair_wifi_logic o ip) ∧
     directSuccess (new_pair_wifi_logic o ip) (newPairSuccessActions ip)) := by
  cases h1 : o 1 <;> cases h2 : o 2 <;> cases h3 : o 3 <;> cases ip <;>
    · simp only [auto_connect_retry_logic, new_pair_wifi_logic, retry_loop_eq,
        h1, h2, h3, if_true, if_false, Bool.false_eq_true, ite_false,
        ite_true]
      refine ⟨⟨?_, ?_, ?_, ?_⟩, ?_, ?_, ?_, ?_⟩ <;> decide

/-- Concrete instantiation of `wifi_retry_policy`: with every attempt
succeeding, the reconnect branch performs at most the retry limit of connect
attempts. -/
theorem wifi_retry_policy_witness :
    atMostLimitConnects (auto_connect_retry_logic (fun _ => true)) :=
  (wifi_retry_policy (fun _ => true) true).1.1

/-- The ordering property claimed for the fresh-pairing path: the device
would be persisted only after a successful WiFi connect, i.e. some
successful connect attempt precedes the `save_pairing` call in the trace. -/
abbrev persistedAfterConnect (l : List CtrlAction) : Prop :=
  ∃ i j : Fin l.length, i < j ∧ isSuccConnect (l.get i) = true ∧
    l.get j = CtrlAction.savePairing

/-- Claim C7 fails on the code: on the fresh-pairing path with the first
connect attempt succeeding and the local IP available, the trace contains
the `save_pairing` call and a successful connect attempt, but the device is
persisted in `_on_paired` before the WiFi worker even starts, so no
successful connect precedes `save_pairing`. -/
theorem on_paired_counterexample :
    CtrlAction.savePairing ∈ on_paired (fun _ => true) true ∧
    (∃ i : Fin (on_paired (fun _ => true) true).length,
      isSuccConnect ((on_paired (fun _ => true) true).get i) = true) ∧
    ¬ persistedAfterConnect (on_paired (fun _ => true) true) := by
  refine ⟨by decide, by decide, by decide⟩

/-- The `save_pairing` call appears only at the head of the trace. -/
abbrev savedOnlyAtHead (l : List CtrlAction) : Prop :=
  ∀ i : Fin l.length, l.get i = CtrlAction.savePairing → i.1 = 0

/-- Claim C7 amended: on the fresh-pairing path the device is persisted
first, immediately on receipt of the credentials (the trace starts with
`save_pairing` and `save_pairing` occurs nowhere else), and only then is the
WiFi connect attempted; once an attempt succeeds the remaining actions are,
in order: read the local IP, send it over BLE (when available), sleep, stop
BLE, start the data-exchange endpoint, go home. -/
theorem on_paired_order (o : Nat → Bool) (ip : Bool) :
    (on_paired o ip).head? = some CtrlAction.savePairing ∧
    savedOnlyAtHead (on_paired o ip) ∧
    directSuccess (on_paired o ip) (newPairSuccessActions ip) := by
  cases h1 : o 1 <;> cases h2 : o 2 <;> cases h3 : o 3 <;> cases ip <;>
    · simp only [on_paired, new_pair_wifi_logic, retry_loop_eq, h1, h2, h3,
        if_true, if_false, Bool.false_eq_true, ite_false, ite_true]
      refine ⟨rfl, ?_, ?_⟩ <;> decide

/-- Concrete instantiation of `on_paired_order`: the fresh-pairing trace
begins with the `save_pairing` call. -/
theorem on_paired_order_witness :
    (on_paired (fun _ => false) false).head? = some CtrlAction.savePairing :=
  (on_paired_order (fun _ => false) false).1

/-! ### Claim C8: boot behaviour of `start_pairing_screen` -/

/-- The in-memory configuration of `DeviceManager`: the device id and the
`known_devices` list of the persisted JSON config. -/
structure ConfigData where
  device_id : String
  known_devices : List KnownDevice
  deriving DecidableEq, Repr

/-- `DeviceManager.has_known_devices` (device_manager.py lines 69-70). -/
def has_known_devices (c : ConfigData) : Bool :=
  decide (0 < c.known_devices.length)

/-- `AppController.start_pairing_screen` (app_controller.py lines 61-73) as
its action trace: with known devices it shows the scanning screen and starts
the BLE scan thread, otherwise it shows the QR screen immediately. -/
def start_pairing_screen (c : ConfigData) : List CtrlAction :=
  if has_known_devices c then
    [CtrlAction.showScanning, CtrlAction.startScanThread]
  else [CtrlAction.showQr]

/-- Claim C8: at boot, an empty registry leads directly to the QR
(ProvisioningQR) screen with no scan attempted, and a non-empty registry
leads to the scanning screen with the scan thread started and no QR
screen. -/
theorem boot_state_selection (c : ConfigData) :
    (c.known_devices = [] →
      start_pairing_screen c = [CtrlAction.showQr] ∧
      CtrlAction.startScanThread ∉ start_pairing_screen c) ∧
    (c.known_devices ≠ [] →
      start_pairing_screen c =
        [CtrlAction.showScanning, CtrlAction.startScanThread] ∧
      CtrlAction.showQr ∉ start_pairing_screen c) := by
  constructor
  · intro h
    have hb : has_known_devices c = false := by
      simp [has_known_devices, h]
    constructor
    · simp [start_pairing_screen, hb]
    · simp [start_pairing_screen, hb]
  · intro h
    have hb : has_known_devices c = true := by
      simp [has_known_devices]
      exact List.length_pos.mpr h
    constructor
    · simp [start_pairing_screen, hb]
    · simp [start_pairing_screen, hb]

/-- Concrete instantiation of `boot_state_selection`: the empty registry
boots straight to the QR screen, a one-entry registry boots to scanning. -/
theorem boot_state_selection_witness :
    start_pairing_screen ⟨"MINIK-TEST", []⟩ = [CtrlAction.showQr] ∧
    start_pairing_screen ⟨"MINIK-TEST", [pairingEntry [] "t"]⟩ =
      [CtrlAction.showScanning, CtrlAction.startScanThread] :=
  ⟨((boot_state_selection ⟨"MINIK-TEST", []⟩).1 rfl).1,
    ((boot_state_selection ⟨"MINIK-TEST", [pairingEntry [] "t"]⟩).2
      (by simp)).1⟩

/-! ### Claim C5: `WiFiManager._do_connect` (`network/wifi_manager.py`) -/

/-- An nmcli command the WiFi manager can issue. -/
inductive NmcliCmd where
  | devWifiConnect (ssid password : String)
  | conUp (ssid : String)
  deriving DecidableEq, Repr

/-- The argv that `_do_connect` (wifi_manager.py lines 74-94) hands to the
first `subprocess.run` call: `nmcli dev wifi connect <ssid> password
<password>`.  The password slot holds the Python value passed in, which on
the reconnect path is `None`. -/
def nmcli_connect_argv (ssid : String) (password : Option String) :
    List (Option String) :=
  [some "nmcli", some "dev", some "wifi", some "connect", some ssid,
    some "password", password]

/-- `subprocess.run` requires every argv element to be a string: a `None`
element raises `TypeError` before any process is spawned. -/
def argvStrings : List (Option String) → Option (List String)
  | [] => some []
  | some s :: rest => (argvStrings rest).map (fun xs => s :: xs)
  | Option.none :: _ => Option.none

/-- `WiFiManager._do_connect` (wifi_manager.py lines 74-94) as the list of
OS commands it actually executes.  The whole body is wrapped in
`try/except Exception`: if building the argv of the first `subprocess.run`
fails (a `None` password raises `TypeError`), the exception is swallowed and
no command at all is issued — in particular the saved-profile fallback
`nmcli con up <ssid>` on the following lines is never reached.  With a
string password, the first command runs, and the fallback runs exactly when
its stdout does not report success (`firstReportsSuccess`). -/
def do_connect (ssid : String) (password : Option String)
    (firstReportsSuccess : Bool) : List NmcliCmd :=
  match argvStrings (nmcli_connect_argv ssid password) with
  | Option.none => []
  | some _ =>
      match password with
      | Option.none => []
      | some pw =>
          if firstReportsSuccess then [NmcliCmd.devWifiConnect ssid pw]
          else [NmcliCmd.devWifiConnect ssid pw, NmcliCmd.conUp ssid]

/-- Claim C5 is right about the intent but the code is wrong: called with
the password omitted (`None`), as the reconnect path does
(app_controller.py line 138, `connect_wifi(ssid, password=None)`),
`_do_connect` issues no nmcli command at all — the `None` argv element
raises `TypeError` inside the `try`, the blanket `except` swallows it, and
the saved-profile command `nmcli con up <ssid>` is never reached.  With a
password present the fresh-profile command is issued (and the saved-profile
fallback only after a non-success report). -/
theorem do_connect_none_password_issues_nothing :
    do_connect "MyHotspot" Option.none true = [] ∧
    do_connect "MyHotspot" Option.none false = [] ∧
    NmcliCmd.conUp "MyHotspot" ∉ do_connect "MyHotspot" Option.none false ∧
    do_connect "MyHotspot" (some "pw") true =
      [NmcliCmd.devWifiConnect "MyHotspot" "pw"] ∧
    do_connect "MyHotspot" (some "pw") false =
      [NmcliCmd.devWifiConnect "MyHotspot" "pw",
        NmcliCmd.conUp "MyHotspot"] := by
  refine ⟨rfl, rfl, by decide, rfl, rfl⟩

/-! ### Claim C9: registry file round-trip (`DeviceManager._write_config` /
`_load_config`) -/

/-- The JSON values that appear in the persisted config file. -/
inductive Json where
  | null
  | str (s : String)
  | arr (elems : List Json)
  | obj (fields : List (String × Json))

/-- `json.dump` of one Python value of a `KnownDevice` field. -/
def pvalToJson : PVal → Json
  | PVal.none => Json.null
  | PVal.str s => Json.str s

/-- `json.load` of one `KnownDevice` field value. -/
def jsonToPVal : Json → Option PVal
  | Json.null => some PVal.none
  | Json.str s => some (PVal.str s)
  | _ => Option.none

/-- `json.dump` of one `known_devices` entry. -/
def deviceToJson (d : KnownDevice) : Json :=
  Json.obj [("ble_name", pvalToJson d.ble_name),
    ("ble_mac", pvalToJson d.ble_mac),
    ("ssid", pvalToJson d.ssid),
    ("phone_address", pvalToJson d.phone_address),
    ("last_connected", pvalToJson d.last_connected)]

/-- `json.load` of one `known_devices` entry. -/
def jsonToDevice : Json → Option KnownDevice
  | Json.obj fields => do
      let bn ← (fields.lookup "ble_name").bind jsonToPVal
      let bm ← (fields.lookup "ble_mac").bind jsonToPVal
      let ss ← (fields.lookup "ssid").bind jsonToPVal
      let pa ← (fields.lookup "phone_address").bind jsonToPVal
      let lc ← (fields.lookup "last_connected").bind jsonToPVal
      pure ⟨bn, bm, ss, pa, lc⟩
  | _ => Option.none

/-- `json.load` of the `known_devices` array, element by element. -/
def jsonListToDevices : List Json → Option (List KnownDevice)
  | [] => some []
  | j :: rest => do
      let d ← jsonToDevice j
      let ds ← jsonListToDevices rest
      pure (d :: ds)

/-- `DeviceManager._write_config` (device_manager.py lines 56-62), modelled
at the JSON level: `json.dump` of the dict
`(device_id, known_devices)`. -/
def write_config (c : ConfigData) : Json :=
  Json.obj [("device_id", Json.str c.device_id),
    ("known_devices", Json.arr (c.known_devices.map deviceToJson))]

/-- `DeviceManager._load_config` (device_manager.py lines 47-54), modelled
at the JSON level: `json.load` of the config file back into
`(device_id, known_devices)`. -/
def load_config (j : Json) : Option ConfigData :=
  match j with
  | Json.obj fields => do
      let did ← match fields.lookup "device_id" with
        | some (Json.str s) => some s
        | _ => Option.none
      let kd ← match fields.lookup "known_devices" with
        | some (Json.arr xs) => jsonListToDevices xs
        | _ => Option.none
      pure ⟨did, kd⟩
  | _ => Option.none

theorem jsonToPVal_pvalToJson (v : PVal) :
    jsonToPVal (pvalToJson v) = some v := by
  cases v <;> rfl

theorem jsonToDevice_deviceToJson (d : KnownDevice) :
    jsonToDevice (deviceToJson d) = some d := by
  obtain ⟨bn, bm, ss, pa, lc⟩ := d
  simp [deviceToJson, jsonToDevice, List.lookup, jsonToPVal_pvalToJson]

theorem jsonListToDevices_map (l : List KnownDevice) :
    jsonListToDevices (l.map deviceToJson) = some l := by
  induction l with
  | nil => rfl
  | cons d rest ih =>
      simp [jsonListToDevices, jsonToDevice_deviceToJson, ih]

/-- Claim C9: writing a registry (any `device_id`, any list of entries) to
the persisted config file and reloading it succeeds and yields the same
entries — in particular the same set of entries under order-independent
comparison — with the `device_id` field preserved. -/
theorem registry_round_trip (did : String) (entries : List KnownDevice) :
    load_config (write_config ⟨did, entries⟩) = some ⟨did, entries⟩ ∧
    (load_config (write_config ⟨did, entries⟩)).map ConfigData.device_id =
      some did ∧
    (∀ e : KnownDevice,
      (∃ c', load_config (write_config ⟨did, entries⟩) = some c' ∧
        e ∈ c'.known_devices) ↔ e ∈ entries) := by
  have h : load_config (write_config ⟨did, entries⟩) = some ⟨did, entries⟩ := by
    simp [write_config, load_config, List.lookup, jsonListToDevices_map]
  refine ⟨h, by rw [h]; rfl, ?_⟩
  intro e
  constructor
  · rintro ⟨c', hc', he⟩
    rw [h] at hc'
    cases hc'
    exact he
  · intro he
    exact ⟨⟨did, entries⟩, h, he⟩
